import Mathlib

/-!
Shallow embedding of the content model, content manager and tool adapters of
the ai.cli repository (src/ai_cli/core/content.py and src/ai_cli/tools/), with
theorems settling the frozen claims about the natural-language specification.

Modelling conventions:
* Python dict/list/str values are embedded as `PyVal`; a YAML/JSON document on
  disk is the parsed value (serialization through yaml/json is treated as the
  identity on such values, which it is for the concrete documents involved).
* The filesystem is a pair of association lists: files (path to file data,
  most recent write first) and the set of directories created so far.
* Python exceptions are values of `PyExc`; a fallible operation returns
  `Except PyExc α`.  A `try/except Exception` block is an explicit match.
* Machine-level concerns (encoding, concurrent access, OS glob order) are out
  of scope; glob enumeration order is the file-list order of the model.
-/

set_option autoImplicit false

/-- Python values as stored in content payloads and documents
    (content.py manipulates parsed yaml/json data of this shape). -/
inductive PyVal where
  | str (s : String)
  | int (n : Int)
  | bool (b : Bool)
  | pynone
  | list (xs : List PyVal)
  | dict (kvs : List (String × PyVal))

/-- A Python dict with string keys: association list, first binding wins. -/
abbrev Dict := List (String × PyVal)

/-- `d.get(k)` / `d[k]` lookup on an embedded dict. -/
def dictGet (d : Dict) (k : String) : Option PyVal :=
  match d with
  | [] => none
  | (k1, v) :: rest => if k1 = k then some v else dictGet rest k

/-- `class ContentType(Enum)` of content.py, lines 17-28. -/
inductive ContentType where
  | RULE
  | WORKFLOW
  | PROFILE
  | GLOBAL_RULE
  | PROJECT_RULE
  | AMAZONQ_PROFILE
  | WINDSURF_WORKFLOW
  deriving DecidableEq, Repr

/-- The `.value` string of each enum member (content.py lines 19-25). -/
def ContentType.value : ContentType → String
  | .RULE => "rules"
  | .WORKFLOW => "workflows"
  | .PROFILE => "profiles"
  | .GLOBAL_RULE => "global_rules"
  | .PROJECT_RULE => "project_rules"
  | .AMAZONQ_PROFILE => "amazonq_profiles"
  | .WINDSURF_WORKFLOW => "windsurf_workflows"

/-- The `ContentType(s)` enum constructor: the member whose value is `s`,
    or `none` where Python raises ValueError. -/
def ContentType.ofValue (s : String) : Option ContentType :=
  if s = "rules" then some .RULE
  else if s = "workflows" then some .WORKFLOW
  else if s = "profiles" then some .PROFILE
  else if s = "global_rules" then some .GLOBAL_RULE
  else if s = "project_rules" then some .PROJECT_RULE
  else if s = "amazonq_profiles" then some .AMAZONQ_PROFILE
  else if s = "windsurf_workflows" then some .WINDSURF_WORKFLOW
  else none

/-- Python exceptions that the embedded code can raise. -/
inductive PyExc where
  | valueError (msg : String)
  | typeError (msg : String)
  | keyError (key : String)
  | fileNotFoundError
  | fileExistsError
  | ioError
  deriving DecidableEq, Repr

/-- A pathlib path: absolute flag plus the list of name segments. -/
structure FilePath0 where
  abs : Bool
  segs : List String
  deriving DecidableEq, Repr

/-- A relative path. -/
def relPath (segs : List String) : FilePath0 := ⟨false, segs⟩

/-- An absolute path. -/
def absPath (segs : List String) : FilePath0 := ⟨true, segs⟩

/-- `p / seg` for a single extra segment. -/
def FilePath0.push (p : FilePath0) (seg : String) : FilePath0 :=
  ⟨p.abs, p.segs ++ [seg]⟩

/-- `p / q` where `q` is relative (pathlib join). -/
def pathJoin (p q : FilePath0) : FilePath0 :=
  ⟨p.abs, p.segs ++ q.segs⟩

/-- `p.parent`. -/
def FilePath0.parent (p : FilePath0) : FilePath0 :=
  ⟨p.abs, p.segs.dropLast⟩

/-- The final name segment of a path, `""` for an empty path. -/
def FilePath0.lastSeg (p : FilePath0) : String :=
  match p.segs.reverse with
  | [] => ""
  | s :: _ => s

/-- String concatenation, kept explicit on the character lists so that
    equalities and disequalities reduce to list lemmas. -/
def strCat (a b : String) : String :=
  String.mk (a.data ++ b.data)

/-- Position of the first dot in a character list (used on the reversed
    name, where it is the last dot of the name). -/
def firstDotIdx : List Char → Option Nat
  | [] => none
  | c :: rest => if c = '.' then some 0 else (firstDotIdx rest).map (· + 1)

/-- pathlib suffix of a file name: the substring from the last dot on,
    empty when there is no dot or the dot is the first or last character
    (so ".bashrc" and "x." have no suffix, as in Python). -/
def strSuffix (s : String) : String :=
  match firstDotIdx s.data.reverse with
  | none => ""
  | some j =>
      if 0 < s.data.length - 1 - j ∧ s.data.length - 1 - j < s.data.length - 1 then
        String.mk (s.data.drop (s.data.length - 1 - j))
      else ""

/-- `p.suffix`: the suffix of the last segment. -/
def FilePath0.suffix (p : FilePath0) : String :=
  strSuffix p.lastSeg

/-- `p.with_suffix ext` in the only case save uses it (no current suffix):
    append `ext` to the last segment. -/
def FilePath0.withSuffix (p : FilePath0) (ext : String) : FilePath0 :=
  match p.segs.reverse with
  | [] => p
  | s :: rest => ⟨p.abs, (strCat s ext :: rest).reverse⟩

/-- Data held by a file: a parsed document value, or an empty file left by
    an aborted write (`open(path, "w")` creates the file before any dump). -/
inductive FileData where
  | val (v : PyVal)
  | empty

/-- The filesystem state: files (most recent write first) and directories. -/
structure FS where
  files : List (FilePath0 × FileData)
  dirs : List FilePath0

/-- Association-list lookup keyed on the path. -/
def lookupFile : List (FilePath0 × FileData) → FilePath0 → Option FileData
  | [], _ => none
  | (q, d) :: rest, p => if q = p then some d else lookupFile rest p

/-- Contents of the file at `p`, if one exists. -/
def FS.getFile (fs : FS) (p : FilePath0) : Option FileData :=
  lookupFile fs.files p

/-- Write (create or overwrite) the file at `p`. -/
def FS.setFile (fs : FS) (p : FilePath0) (d : FileData) : FS :=
  ⟨(p, d) :: fs.files, fs.dirs⟩

/-- All prefixes of a path, the path itself included. -/
def pathPrefixes (p : FilePath0) : List FilePath0 :=
  (List.range (p.segs.length + 1)).map (fun k => ⟨p.abs, p.segs.take k⟩)

/-- `p.mkdir(parents=True, exist_ok=True)`. -/
def FS.mkdirP (fs : FS) (p : FilePath0) : FS :=
  ⟨fs.files, pathPrefixes p ++ fs.dirs⟩

example : dictGet [("a", .int 1), ("b", .int 2)] "b" = some (.int 2) := rfl
example : strSuffix "foo.txt" = ".txt" := rfl
example : strSuffix "archive.tar.gz" = ".gz" := rfl
example : strSuffix ".bashrc" = "" := rfl
example : strSuffix "rules" = "" := rfl
example : strSuffix "x." = "" := rfl
example : (relPath ["a", "b.yaml"]).suffix = ".yaml" := rfl

/-- Which Python class an in-memory item is an instance of. -/
inductive Variant where
  | base
  | rule
  | workflow
  | profile
  deriving DecidableEq, Repr

/-- `ContentItem` (content.py lines 35-46) and its subclasses, collapsed into
    one structure with a `variant` tag.  `tool` is the extra attribute of the
    `Profile` class (line 268); it is `none` for every other class. -/
structure Item where
  variant : Variant
  name : String
  content : PyVal
  content_type : ContentType
  path : Option FilePath0
  metadata : PyVal
  tool : Option String

/-- The base `validate` (content.py lines 48-57): non-empty name and
    dict-shaped content. -/
def ContentItem.validate_base (name : String) (content : PyVal) : Except PyExc Unit :=
  if name = "" then .error (.valueError "Content item must have a name")
  else
    match content with
    | .dict _ => .ok ()
    | _ => .error (.valueError "Content must be a dictionary")

/-- `ContentItem.to_dict` (content.py lines 59-66). -/
def ContentItem.to_dict (it : Item) : Dict :=
  [("name", .str it.name),
   ("content_type", .str it.content_type.value),
   ("content", it.content),
   ("metadata", it.metadata)]

/-- The document dict built inside `save` (content.py lines 155-160).
    Note that it never includes a `tool` key, whatever the item is. -/
def ContentItem.saveData (it : Item) : Dict :=
  [("name", .str it.name),
   ("content", it.content),
   ("content_type", .str it.content_type.value),
   ("metadata", it.metadata)]

/-- `name.lower().replace(" ", "_")` (content.py lines 124, 139). -/
def pyNormalize (s : String) : String :=
  String.mk (s.data.map (fun c => if c = ' ' then '_' else c.toLower))

/-- The content-type-driven default extension (content.py lines 123, 138, 145). -/
def default_ext (ct : ContentType) : String :=
  if ct = .RULE ∨ ct = .WORKFLOW ∨ ct = .PROFILE then ".yaml" else ".json"

/-- The generated default file name (content.py line 139). -/
def defaultFileName (it : Item) : String :=
  strCat (pyNormalize it.name) (default_ext it.content_type)

/-- `ContentItem.save` (content.py lines 79-173).  Returns the Python result
    (the saved path together with the item carrying its updated `path`
    attribute) and the filesystem after the call; the filesystem is returned
    in every case because directory creation and the `open(..., "w")` file
    creation happen before the format dispatch can raise. -/
def ContentItem.save (it : Item) (base_dir filename : Option FilePath0) (fs : FS) :
    (Except PyExc (FilePath0 × Item)) × FS :=
  if base_dir = none ∧ it.path = none ∧ filename = none then
    (.error (.valueError "Either base_dir or path must be provided"), fs)
  else
    -- Lines 100-104: the special case for a single positional file-path
    -- argument assigns save_path, but that assignment is dead because every
    -- branch of the conditional on lines 106-141 reassigns save_path.  Its
    -- only surviving effect is clearing base_dir.
    let base_dir : Option FilePath0 :=
      match filename, base_dir with
      | none, some b =>
          if b.suffix = ".yaml" ∨ b.suffix = ".yml" ∨ b.suffix = ".json" then none else some b
      | _, _ => base_dir
    -- Lines 106-141: resolve the save path.
    let save_path : FilePath0 :=
      match filename with
      | some f =>
          match base_dir with
          | some b =>
              if f.abs then f
              else if f.suffix ≠ "" then pathJoin b f
              else pathJoin (pathJoin b f) (relPath [defaultFileName it])
          | none => f
      | none =>
          match it.path with
          | some p => p
          | none =>
              match base_dir with
              | some b => b.push (defaultFileName it)
              | none => relPath [defaultFileName it]
    -- Lines 143-146: append the default extension when none is present.
    let save_path :=
      if save_path.suffix = "" then save_path.withSuffix (default_ext it.content_type) else save_path
    -- Line 150: save_path.parent.mkdir(parents=True, exist_ok=True).
    let fs := fs.mkdirP save_path.parent
    let data := ContentItem.saveData it
    -- Lines 163-169: open(save_path, "w") creates the file, then the format
    -- dispatch either dumps the document or raises ValueError.
    if save_path.suffix = ".yaml" ∨ save_path.suffix = ".yml" ∨ save_path.suffix = ".json" then
      (.ok (save_path, { it with path := some save_path }), fs.setFile save_path (.val (.dict data)))
    else
      (.error (.valueError (strCat "Unsupported file format: " save_path.suffix)),
       fs.setFile save_path .empty)

/-- `Rule.from_dict` = the inherited `ContentItem.from_dict` (content.py
    lines 68-77) applied with `cls = Rule`; `Rule.__init__` accepts the
    content_type keyword (its field keeps `init=True`, line 226), so the
    construction succeeds and `__post_init__` runs `validate`. -/
def Rule.from_dict (data : Dict) : Except PyExc Item :=
  let ctVal := (dictGet data "content_type").getD (.str "rules")
  match ctVal with
  | .str s =>
      match ContentType.ofValue s with
      | none => .error (.valueError (strCat s " is not a valid ContentType"))
      | some ct =>
          match dictGet data "name" with
          | none => .error (.keyError "name")
          | some (.str name) =>
              match dictGet data "content" with
              | none => .error (.keyError "content")
              | some content =>
                  let metadata := (dictGet data "metadata").getD (.dict [])
                  match ContentItem.validate_base name content with
                  | .error e => .error e
                  | .ok _ => .ok ⟨.rule, name, content, ct, none, metadata, none⟩
          | some _ => .error (.typeError "non-string name values are not modelled")
  | _ => .error (.valueError "value is not a valid ContentType")

/-- `Workflow.from_dict` = the inherited `ContentItem.from_dict` applied with
    `cls = Workflow`.  The Workflow dataclass redeclares content_type with
    `init=False` (content.py line 243), so the generated `Workflow.__init__`
    has no content_type parameter, while `from_dict` (line 72) always passes
    `content_type=...` as a keyword: the call raises TypeError before any
    field is assigned. -/
def Workflow.from_dict (_data : Dict) : Except PyExc Item :=
  .error (.typeError "Workflow.init got an unexpected keyword argument content_type")

/-- `Profile.from_dict` = the inherited `ContentItem.from_dict` applied with
    `cls = Profile`.  `Profile.__init__` (content.py lines 270-275) takes
    `(name, tool, content, path, metadata)` and has no content_type
    parameter, while `from_dict` always passes `content_type=...` as a
    keyword (and omits the required `tool`): the call raises TypeError. -/
def Profile.from_dict (_data : Dict) : Except PyExc Item :=
  .error (.typeError "Profile.init got an unexpected keyword argument content_type")

/-- `ContentItem.load` (content.py lines 175-221). -/
def ContentItem.load (fs : FS) (filepath : FilePath0) : Except PyExc Item :=
  match fs.getFile filepath with
  | none => .error .fileNotFoundError
  | some fd =>
      let sfx := filepath.suffix
      if sfx = ".yaml" ∨ sfx = ".yml" ∨ sfx = ".json" then
        match fd with
        | .empty => .error (.typeError "argument of type NoneType is not iterable")
        | .val (.dict data) =>
            -- Lines 200-207: infer content_type from the parent directory
            -- name when the document omits it, defaulting to RULE.
            let data :=
              if (dictGet data "content_type").isSome then data
              else
                let inferred :=
                  match ContentType.ofValue filepath.parent.lastSeg with
                  | some ct => ct.value
                  | none => ContentType.RULE.value
                ("content_type", .str inferred) :: data
            match dictGet data "content_type" with
            | some (.str s) =>
                match ContentType.ofValue s with
                | none => .error (.valueError (strCat s " is not a valid ContentType"))
                | some ct =>
                    -- Lines 209-218: dispatch to the variant constructor.
                    let r :=
                      if ct = .RULE ∨ ct = .GLOBAL_RULE ∨ ct = .PROJECT_RULE then
                        Rule.from_dict data
                      else if ct = .WORKFLOW ∨ ct = .WINDSURF_WORKFLOW then
                        Workflow.from_dict data
                      else
                        Profile.from_dict data
                    match r with
                    | .error e => .error e
                    | .ok item => .ok { item with path := some filepath }
            | some _ => .error (.valueError "value is not a valid ContentType")
            | none => .error (.keyError "content_type")
        | .val _ => .error (.typeError "non-mapping documents are not modelled")
      else .error (.valueError (strCat "Unsupported file format: " sfx))

/-- All enum members in declaration order (`ContentType.__members__`). -/
def allContentTypes : List ContentType :=
  [.RULE, .WORKFLOW, .PROFILE, .GLOBAL_RULE, .PROJECT_RULE, .AMAZONQ_PROFILE, .WINDSURF_WORKFLOW]

/-- `self.content_dirs[content_type]` (content.py lines 317-321). -/
def contentDir (base : FilePath0) (ct : ContentType) : FilePath0 :=
  base.push ct.value

/-- `ContentManager.__init__` (content.py lines 308-323): eagerly create one
    subdirectory per content type. -/
def ContentManager.initDirs (base : FilePath0) (fs : FS) : FS :=
  allContentTypes.foldl (fun acc ct => acc.mkdirP (contentDir base ct)) fs

/-- Does path `p` match the glob pattern `dir/**/fname`?  `**` matches zero
    or more intermediate directories. -/
def globMatch (dir : FilePath0) (fname : String) (p : FilePath0) : Bool :=
  (p.abs == dir.abs) && dir.segs.isPrefixOf p.segs &&
    (match (p.segs.drop dir.segs.length).reverse with
     | [] => false
     | s :: _ => s == fname)

/-- First file entry matching `dir/**/fname`, in the enumeration order of
    the model (content.py line 371). -/
def findGlob : List (FilePath0 × FileData) → FilePath0 → String → Option FilePath0
  | [], _, _ => none
  | (q, _) :: rest, dir, fname =>
      if globMatch dir fname q then some q else findGlob rest dir fname

/-- The search for one extension inside `get_item` (content.py lines 364-373):
    the direct path first, then the recursive glob. -/
def ContentManager.findName (fs : FS) (dir : FilePath0) (fname : String) : Option FilePath0 :=
  if (fs.getFile (dir.push fname)).isSome then some (dir.push fname)
  else findGlob fs.files dir fname

/-- The extension loop of `get_item` over [".yaml", ".yml", ".json"]. -/
def ContentManager.searchExts (fs : FS) (dir : FilePath0) (name : String) :
    List String → Except PyExc (Option Item)
  | [] => .ok none
  | ext :: rest =>
      match ContentManager.findName fs dir (strCat name ext) with
      | some p =>
          match ContentItem.load fs p with
          | .error e => .error e
          | .ok item => .ok (some item)
      | none => ContentManager.searchExts fs dir name rest

/-- `ContentManager.get_item` (content.py lines 349-375).  A load failure
    propagates out of get_item (there is no try/except around the loads). -/
def ContentManager.get_item (fs : FS) (base : FilePath0) (ct : ContentType) (name : String) :
    Except PyExc (Option Item) :=
  ContentManager.searchExts fs (contentDir base ct) name [".yaml", ".yml", ".json"]

/-- `ContentManager.add_item` (content.py lines 325-347). -/
def ContentManager.add_item (base : FilePath0) (item : Item) (overwrite : Bool) (fs : FS) :
    (Except PyExc (FilePath0 × Item)) × FS :=
  match ContentManager.get_item fs base item.content_type item.name with
  | .error e => (.error e, fs)
  | .ok existing =>
      if existing.isSome && !overwrite then (.error .fileExistsError, fs)
      else ContentItem.save item (some (contentDir base item.content_type)) none fs

example :
    ContentManager.get_item ⟨[], []⟩ (absPath ["cfg"]) .RULE "r" = .ok none := rfl

/-- The per-item loop of `sync_to_tool` (content.py lines 452-459): for the
    i-th item (1-based), report progress then invoke the adapter.  Python
    computes `int((i / total) * 100)` in binary floating point; the model
    uses the exact floor `i * 100 / total`.  Both are monotone in `i`
    (float rounding is monotone) and agree on every concrete input below.
    An exception from `sync_item` is caught by the surrounding try
    (line 466): the loop stops, the error callback `(0, ...)` fires and the
    overall result is False. -/
def syncLoop (tool_name : String) (f : Item → Except PyExc Bool) (total : Nat) :
    Nat → List Item → Bool × List (Nat × String)
  | _, [] => (true, [(100, strCat "Sync with " (strCat tool_name " complete"))])
  | i, item :: rest =>
      let call : Nat × String := (i * 100 / total, strCat "Syncing " item.name)
      match f item with
      | .ok _ =>
          let r := syncLoop tool_name f total (i + 1) rest
          (r.1, call :: r.2)
      | .error _ => (false, [call, (0, strCat "Error syncing with " tool_name)])

/-- `ContentManager.sync_to_tool` (content.py lines 422-470), with the
    collected `items_to_sync` list (built by list_items over the supported
    types, lines 437-444) as a parameter, and the progress callback reified
    as the returned list of (percent, message) calls in order.  The boolean
    returned by each `sync_item` call is discarded (line 459). -/
def ContentManager.sync_to_tool (tool_name : String) (f : Item → Except PyExc Bool)
    (items : List Item) : Bool × List (Nat × String) :=
  let start : Nat × String := (0, strCat "Starting sync with " tool_name)
  match items with
  | [] => (true, [start, (100, "No content to sync")])
  | _ =>
      let r := syncLoop tool_name f items.length 1 items
      (r.1, start :: r.2)

/-- Fallible file I/O for the adapters: whether each write (open for writing
    plus dump) and each read (open for reading plus parse) succeeds.
    Quantifying over this oracle expresses "any internal failure". -/
structure IOEnv where
  writeOk : FilePath0 → Bool
  readOk : FilePath0 → Bool

/-- A guarded file write: raises IOError when the oracle denies it. -/
def fsWrite (env : IOEnv) (fs : FS) (p : FilePath0) (d : FileData) : Except PyExc FS :=
  if env.writeOk p then .ok (fs.setFile p d) else .error .ioError

/-- Python dict assignment `d[k] = v`: replace in place, or append a new
    binding at the end. -/
def dictSet (d : Dict) (k : String) (v : PyVal) : Dict :=
  if (dictGet d k).isSome then d.map (fun kv => if kv.1 = k then (k, v) else kv)
  else d ++ [(k, v)]

/-- The `try: ... except Exception: return False` wrapper that each concrete
    adapter puts around the body of `sync_item`: an escaped exception becomes
    a False return, with the filesystem as mutated so far. -/
def pyCatchFalse : Except PyExc Bool × FS → Except PyExc Bool × FS
  | (.ok b, fs1) => (.ok b, fs1)
  | (.error _, fs1) => (.ok false, fs1)

def windsurfPersonaPath (cfg : FilePath0) (name : String) : FilePath0 :=
  (cfg.push "personas").push (strCat name ".json")

def windsurfWorkflowPath (cfg : FilePath0) (name : String) : FilePath0 :=
  (cfg.push "workflows").push (strCat name ".json")

/-- `WindsurfAdapter._sync_persona` (windsurf_adapter.py lines 67-96); its own
    try/except turns any failure into a False return.  A non-dict content
    makes `rule.content.get` raise AttributeError, which that except catches. -/
def WindsurfAdapter.sync_persona (cfg : FilePath0) (env : IOEnv) (fs : FS) (rule : Item) :
    Bool × FS :=
  match rule.content with
  | .dict d =>
      let doc : Dict :=
        [("name", .str rule.name),
         ("description", (dictGet d "description").getD (.str "")),
         ("config", .dict d)]
      match fsWrite env fs (windsurfPersonaPath cfg rule.name) (.val (.dict doc)) with
      | .ok fs1 => (true, fs1)
      | .error _ => (false, fs)
  | _ => (false, fs)

/-- `WindsurfAdapter._sync_workflow` (windsurf_adapter.py lines 98-127). -/
def WindsurfAdapter.sync_workflow (cfg : FilePath0) (env : IOEnv) (fs : FS) (wf : Item) :
    Bool × FS :=
  match wf.content with
  | .dict d =>
      let doc : Dict :=
        [("name", .str wf.name),
         ("description", (dictGet d "description").getD (.str "")),
         ("steps", (dictGet d "steps").getD (.list []))]
      match fsWrite env fs (windsurfWorkflowPath cfg wf.name) (.val (.dict doc)) with
      | .ok fs1 => (true, fs1)
      | .error _ => (false, fs)
  | _ => (false, fs)

/-- `WindsurfAdapter.sync_item` (windsurf_adapter.py lines 44-65): content
    type dispatch wrapped in try/except Exception, which converts any escaped
    exception into a False return.  A Profile falls into the unsupported
    branch (warning plus False); the tool attribute is never read. -/
def WindsurfAdapter.sync_item (cfg : FilePath0) (env : IOEnv) (fs : FS) (item : Item) :
    Except PyExc Bool × FS :=
  let body : Except PyExc Bool × FS :=
    if item.content_type = .RULE ∨ item.content_type = .GLOBAL_RULE ∨
        item.content_type = .PROJECT_RULE then
      let r := WindsurfAdapter.sync_persona cfg env fs item
      (.ok r.1, r.2)
    else if item.content_type = .WORKFLOW ∨ item.content_type = .WINDSURF_WORKFLOW then
      let r := WindsurfAdapter.sync_workflow cfg env fs item
      (.ok r.1, r.2)
    else
      (.ok false, fs)
  pyCatchFalse body

def qcliProfilePath (cfg : FilePath0) (name : String) : FilePath0 :=
  (cfg.push "profiles").push (strCat name ".yaml")

def qcliRulePath (cfg : FilePath0) (name : String) : FilePath0 :=
  (cfg.push "rules").push (strCat name ".yaml")

def qcliWorkflowPath (cfg : FilePath0) (name : String) : FilePath0 :=
  (cfg.push "workflows").push (strCat name ".yaml")

/-- `QCLIAdapter._sync_profile` (qcli_adapter.py lines 71-100).  The
    profile's tool attribute is never consulted: any profile handed to this
    adapter is written out. -/
def QCLIAdapter.sync_profile (cfg : FilePath0) (env : IOEnv) (fs : FS) (profile : Item) :
    Bool × FS :=
  let doc : Dict := [("name", .str profile.name), ("config", profile.content)]
  match fsWrite env fs (qcliProfilePath cfg profile.name) (.val (.dict doc)) with
  | .ok fs1 => (true, fs1)
  | .error _ => (false, fs)

/-- `QCLIAdapter._sync_rule` (qcli_adapter.py lines 102-125): dumps the rule
    content itself. -/
def QCLIAdapter.sync_rule (cfg : FilePath0) (env : IOEnv) (fs : FS) (rule : Item) :
    Bool × FS :=
  match fsWrite env fs (qcliRulePath cfg rule.name) (.val rule.content) with
  | .ok fs1 => (true, fs1)
  | .error _ => (false, fs)

/-- `QCLIAdapter._sync_workflow` (qcli_adapter.py lines 127-150). -/
def QCLIAdapter.sync_workflow (cfg : FilePath0) (env : IOEnv) (fs : FS) (wf : Item) :
    Bool × FS :=
  match fsWrite env fs (qcliWorkflowPath cfg wf.name) (.val wf.content) with
  | .ok fs1 => (true, fs1)
  | .error _ => (false, fs)

/-- `QCLIAdapter.sync_item` (qcli_adapter.py lines 46-69). -/
def QCLIAdapter.sync_item (cfg : FilePath0) (env : IOEnv) (fs : FS) (item : Item) :
    Except PyExc Bool × FS :=
  let body : Except PyExc Bool × FS :=
    if item.content_type = .PROFILE ∨ item.content_type = .AMAZONQ_PROFILE then
      let r := QCLIAdapter.sync_profile cfg env fs item
      (.ok r.1, r.2)
    else if item.content_type = .RULE then
      let r := QCLIAdapter.sync_rule cfg env fs item
      (.ok r.1, r.2)
    else if item.content_type = .WORKFLOW then
      let r := QCLIAdapter.sync_workflow cfg env fs item
      (.ok r.1, r.2)
    else
      (.ok false, fs)
  pyCatchFalse body

def geminiConfigPath (cfg : FilePath0) : FilePath0 :=
  cfg.push "config.json"

def geminiPromptPath (cfg : FilePath0) (name : String) : FilePath0 :=
  (cfg.push "prompts").push (strCat name ".txt")

def geminiWorkflowPath (cfg : FilePath0) (name : String) : FilePath0 :=
  cfg.push (strCat "workflow_" (strCat name ".json"))

/-- `str(path)` for the prompt-template reference stored in the config. -/
def pathStr (p : FilePath0) : String :=
  strCat (if p.abs then "/" else "") (String.intercalate "/" p.segs)

/-- `GeminiAdapter._sync_config` (gemini_adapter.py lines 85-113): read the
    config file, overwrite the keys that already exist there with the
    profile's values, write it back.  A missing or unparsable config file,
    or a non-dict profile content (whose .items() raises), is caught by the
    helper's try/except and returned as False. -/
def GeminiAdapter.sync_config (cfg : FilePath0) (env : IOEnv) (fs : FS) (profile : Item) :
    Bool × FS :=
  let cpath := geminiConfigPath cfg
  if env.readOk cpath then
    match fs.getFile cpath with
    | some (.val (.dict config)) =>
        match profile.content with
        | .dict pc =>
            let config2 :=
              pc.foldl
                (fun acc kv => if (dictGet acc kv.1).isSome then dictSet acc kv.1 kv.2 else acc)
                config
            match fsWrite env fs cpath (.val (.dict config2)) with
            | .ok fs1 => (true, fs1)
            | .error _ => (false, fs)
        | _ => (false, fs)
    | _ => (false, fs)
  else (false, fs)

/-- `GeminiAdapter._sync_prompt_template` (gemini_adapter.py lines 115-152):
    write the template text, then record its path in the config file under
    prompt_templates.  Non-dict content (so `.get` raises) and non-string
    template values (so `f.write` raises) are caught and become False. -/
def GeminiAdapter.sync_prompt_template (cfg : FilePath0) (env : IOEnv) (fs : FS) (rule : Item) :
    Bool × FS :=
  match rule.content with
  | .dict d =>
      let tmpl : Option String :=
        match dictGet d "template" with
        | some (.str t) => some t
        | none => some ""
        | some _ => none
      match tmpl with
      | none => (false, fs)
      | some t =>
          let ppath := geminiPromptPath cfg rule.name
          match fsWrite env fs ppath (.val (.str t)) with
          | .error _ => (false, fs)
          | .ok fs1 =>
              let cpath := geminiConfigPath cfg
              if env.readOk cpath then
                match fs1.getFile cpath with
                | some (.val (.dict config)) =>
                    let pts : Option Dict :=
                      match dictGet config "prompt_templates" with
                      | some (.dict pts) => some pts
                      | none => some []
                      | some _ => none
                    match pts with
                    | none => (false, fs1)
                    | some pts =>
                        let config2 :=
                          dictSet config "prompt_templates"
                            (.dict (dictSet pts rule.name (.str (pathStr ppath))))
                        match fsWrite env fs1 cpath (.val (.dict config2)) with
                        | .ok fs2 => (true, fs2)
                        | .error _ => (false, fs1)
                | _ => (false, fs1)
              else (false, fs1)
  | _ => (false, fs)

/-- `GeminiAdapter._sync_workflow` (gemini_adapter.py lines 154-184). -/
def GeminiAdapter.sync_workflow (cfg : FilePath0) (env : IOEnv) (fs : FS) (wf : Item) :
    Bool × FS :=
  match wf.content with
  | .dict d =>
      let doc : Dict :=
        [("name", .str wf.name),
         ("description", (dictGet d "description").getD (.str "")),
         ("steps", (dictGet d "steps").getD (.list [])),
         ("parameters", (dictGet d "parameters").getD (.dict []))]
      match fsWrite env fs (geminiWorkflowPath cfg wf.name) (.val (.dict doc)) with
      | .ok fs1 => (true, fs1)
      | .error _ => (false, fs)
  | _ => (false, fs)

/-- `GeminiAdapter.sync_item` (gemini_adapter.py lines 60-83). -/
def GeminiAdapter.sync_item (cfg : FilePath0) (env : IOEnv) (fs : FS) (item : Item) :
    Except PyExc Bool × FS :=
  let body : Except PyExc Bool × FS :=
    if item.content_type = .PROFILE then
      let r := GeminiAdapter.sync_config cfg env fs item
      (.ok r.1, r.2)
    else if item.content_type = .RULE then
      let r := GeminiAdapter.sync_prompt_template cfg env fs item
      (.ok r.1, r.2)
    else if item.content_type = .WORKFLOW then
      let r := GeminiAdapter.sync_workflow cfg env fs item
      (.ok r.1, r.2)
    else
      (.ok false, fs)
  pyCatchFalse body

/-- Is a list of percentages monotonically non-decreasing? -/
def nonDecr : List Nat → Bool
  | [] => true
  | [_] => true
  | a :: b :: t => Nat.ble a b && nonDecr (b :: t)

/-- The last element of a list of percentages. -/
def lastOf : List Nat → Option Nat
  | [] => none
  | [a] => some a
  | _ :: b :: t => lastOf (b :: t)

/-! Concrete fixtures used by witnesses, counterexamples and the code_bug
    evaluations. -/

def fsEmpty : FS := ⟨[], []⟩

def envAll : IOEnv := ⟨fun _ => true, fun _ => true⟩

def baseCfg : FilePath0 := absPath ["cfg"]

/-- A fresh ContentManager over `baseCfg`: directories created, no files. -/
def fsFresh : FS := ContentManager.initDirs baseCfg fsEmpty

def itemMyRule : Item :=
  ⟨.rule, "My Rule", .dict [("description", .str "x")], .RULE, none, .dict [], none⟩

def itemLintPy : Item :=
  ⟨.rule, "lint-py",
   .dict [("description", .str "x"), ("conditions", .list []), ("actions", .list [])],
   .RULE, none, .dict [], none⟩

/-- A workflow document that omits the content_type key. -/
def wfNoTypeDoc : Dict :=
  [("name", .str "test_workflow"),
   ("content", .dict [("steps", .list [.str "step1", .str "step2"])])]

def wfNoTypePath : FilePath0 := absPath ["home", "u", "workflows", "test_workflow.yaml"]

def fsWorkflowNoType : FS := ⟨[(wfNoTypePath, .val (.dict wfNoTypeDoc))], []⟩

def itemProfileT : Item :=
  ⟨.profile, "test_profile", .dict [("api_key", .str "12345")], .PROFILE, none,
   .dict [], some "test_tool"⟩

def ruleDocOld : Dict :=
  [("name", .str "r"), ("content", .dict [("description", .str "old")]),
   ("content_type", .str "rules"), ("metadata", .dict [])]

def legacyRulePath : FilePath0 := absPath ["cfg", "rules", "legacy", "r.yaml"]

def fsLegacy : FS := ⟨[(legacyRulePath, .val (.dict ruleDocOld))], []⟩

def directRulePath : FilePath0 := absPath ["cfg", "rules", "r.yaml"]

def fsDirect : FS := ⟨[(directRulePath, .val (.dict ruleDocOld))], []⟩

def itemRNew : Item :=
  ⟨.rule, "r", .dict [("description", .str "new")], .RULE, none, .dict [], none⟩

def cfgQ : FilePath0 := absPath ["home", "q"]

def cfgW : FilePath0 := absPath ["home", "windsurf"]

/-- A Profile whose tool attribute is q-cli. -/
def profForQcli : Item :=
  ⟨.profile, "p", .dict [("api_key", .str "k")], .PROFILE, none, .dict [], some "q-cli"⟩

/-- A Profile whose tool attribute is windsurf. -/
def profForWindsurf : Item :=
  ⟨.profile, "p", .dict [("api_key", .str "k")], .PROFILE, none, .dict [], some "windsurf"⟩

def itemTestRule : Item :=
  ⟨.rule, "test_rule", .dict [("description", .str "A test rule")], .RULE, none, .dict [], none⟩

def givenSavePath : FilePath0 := absPath ["tmp", "t", "test_rule.yaml"]

def demoItems : List Item :=
  [itemLintPy, { itemLintPy with name := "b" }, { itemLintPy with name := "c" }]

/-- The file path that `add_item` ultimately writes to for a fresh item:
    the type subdirectory, the normalized name and the type default
    extension. -/
def defaultSavePath (base : FilePath0) (item : Item) : FilePath0 :=
  (contentDir base item.content_type).push (defaultFileName item)

theorem pyCatchFalse_isOk (x : Except PyExc Bool × FS) : (pyCatchFalse x).1.isOk = true := by
  rcases x with ⟨e, fs1⟩
  cases e <;> rfl

/-- Claim C4: for each concrete adapter (Q-CLI, Windsurf, Gemini) and every
    content item, filesystem state and I/O outcome, sync_item returns an
    ordinary boolean — no exception escapes, because the whole body is
    wrapped in try/except Exception which converts failures to False. -/
theorem c4_sync_item_never_raises (cfg : FilePath0) (env : IOEnv) (fs : FS) (item : Item) :
    (WindsurfAdapter.sync_item cfg env fs item).1.isOk = true ∧
    (QCLIAdapter.sync_item cfg env fs item).1.isOk = true ∧
    (GeminiAdapter.sync_item cfg env fs item).1.isOk = true := by
  refine ⟨?_, ?_, ?_⟩
  · unfold WindsurfAdapter.sync_item
    exact pyCatchFalse_isOk _
  · unfold QCLIAdapter.sync_item
    exact pyCatchFalse_isOk _
  · unfold GeminiAdapter.sync_item
    exact pyCatchFalse_isOk _

/-- Claim C2 (code evaluated at the failing input): a document that omits
    content_type, stored in a file whose parent directory is named
    workflows, has its type correctly inferred as WORKFLOW, but load then
    raises TypeError instead of returning a Workflow, because
    ContentItem.from_dict passes a content_type keyword that the generated
    Workflow initializer (content_type field declared with init=False) does
    not accept.  The repository's own test_workflow_serialization asserts
    the behaviour the claim describes. -/
theorem c2_load_workflow_dir_raises :
    ContentItem.load fsWorkflowNoType wfNoTypePath =
      .error (.typeError "Workflow.init got an unexpected keyword argument content_type") := rfl

/-- Claim C5 (code evaluated at the failing input): the document produced
    for a Profile by to_dict, and the one written by save, contain the four
    base keys but no tool key at all, although the in-memory Profile carries
    tool = "test_tool": serialization drops the tool attribute. -/
theorem c5_profile_document_lacks_tool :
    itemProfileT.tool = some "test_tool" ∧
    dictGet (ContentItem.to_dict itemProfileT) "tool" = none ∧
    dictGet (ContentItem.saveData itemProfileT) "tool" = none ∧
    (dictGet (ContentItem.to_dict itemProfileT) "name").isSome = true ∧
    (dictGet (ContentItem.to_dict itemProfileT) "content_type").isSome = true ∧
    (dictGet (ContentItem.to_dict itemProfileT) "content").isSome = true ∧
    (dictGet (ContentItem.to_dict itemProfileT) "metadata").isSome = true :=
  ⟨rfl, rfl, rfl, rfl, rfl, rfl, rfl⟩

/-- Claim C10 (code evaluated at the failing input): calling save with the
    single positional argument /tmp/t/test_rule.yaml on a not-yet-saved rule
    does NOT write to that path.  The special case recognises the file path
    and clears base_dir, but its save_path assignment is dead code, so the
    document lands at the generated relative path test_rule.yaml (current
    working directory) and the item's path is set to that instead.  The
    repository's own comment on the special case and its
    test_rule_serialization test describe the claimed behaviour. -/
theorem c10_save_positional_path_ignored :
    (ContentItem.save itemTestRule (some givenSavePath) none fsEmpty).1
        = .ok (relPath ["test_rule.yaml"],
            { itemTestRule with path := some (relPath ["test_rule.yaml"]) }) ∧
    FS.getFile (ContentItem.save itemTestRule (some givenSavePath) none fsEmpty).2
        givenSavePath = none ∧
    relPath ["test_rule.yaml"] ≠ givenSavePath :=
  ⟨rfl, rfl, by decide⟩

/-- Claim C1, counterexample: the valid rule named "My Rule" (non-empty
    name, dict content) is added to a fresh manager — the add succeeds, the
    file is written under the normalized name my_rule.yaml — but get_item
    with the same type and name returns none, because get_item searches for
    the raw name.  The round-trip law therefore fails as stated. -/
theorem c1_counterexample :
    ((ContentManager.add_item baseCfg itemMyRule false fsFresh).1).isOk = true ∧
    ContentManager.get_item (ContentManager.add_item baseCfg itemMyRule false fsFresh).2
        baseCfg .RULE "My Rule" = .ok none :=
  ⟨rfl, rfl⟩

/-- Claim C6, counterexample: the (RULE, "r") pair exists in the manager —
    get_item finds the file rules/legacy/r.yaml through the recursive glob —
    yet add_item with overwrite true writes a fresh file at the top-level
    default path rules/r.yaml and leaves the old file untouched: the old
    file is not replaced in place. -/
theorem c6_counterexample :
    ContentManager.get_item fsLegacy baseCfg .RULE "r"
        = .ok (some ⟨.rule, "r", .dict [("description", .str "old")], .RULE,
            some legacyRulePath, .dict [], none⟩) ∧
    (ContentManager.add_item baseCfg itemRNew true fsLegacy).1
        = .ok (directRulePath, { itemRNew with path := some directRulePath }) ∧
    FS.getFile (ContentManager.add_item baseCfg itemRNew true fsLegacy).2 legacyRulePath
        = some (.val (.dict ruleDocOld)) ∧
    directRulePath ≠ legacyRulePath :=
  ⟨rfl, rfl, rfl, by decide⟩

/-- Claim C7, counterexample: a Profile whose tool is windsurf, handed to
    the Q-CLI adapter, is synced anyway — the file is written and True is
    returned, so profiles are not synced only by the matching adapter — and
    a Profile whose tool is q-cli, handed to the Windsurf adapter, returns
    False (the failure value), not a skip-as-success. -/
theorem c7_counterexample :
    (QCLIAdapter.sync_item cfgQ envAll fsEmpty profForWindsurf).1 = .ok true ∧
    FS.getFile (QCLIAdapter.sync_item cfgQ envAll fsEmpty profForWindsurf).2
        (qcliProfilePath cfgQ "p")
        = some (.val (.dict [("name", .str "p"), ("config", .dict [("api_key", .str "k")])])) ∧
    WindsurfAdapter.sync_item cfgW envAll fsEmpty profForQcli = (.ok false, fsEmpty) :=
  ⟨rfl, rfl, rfl⟩

/-- Claim C7, amended: the current adapters never consult a Profile's tool
    attribute.  The Windsurf adapter treats every Profile as an unsupported
    content type and returns False without touching the filesystem, and the
    Q-CLI adapter syncs every Profile it receives — its result depends only
    on whether the file write succeeds, never on the tool attribute. -/
theorem c7_amended_no_tool_filtering (cfg : FilePath0) (env : IOEnv) (fs : FS) (p : Item)
    (hp : p.content_type = .PROFILE) :
    WindsurfAdapter.sync_item cfg env fs p = (.ok false, fs) ∧
    (QCLIAdapter.sync_item cfg env fs p).1
        = .ok (env.writeOk (qcliProfilePath cfg p.name)) := by
  constructor
  · simp [WindsurfAdapter.sync_item, hp, pyCatchFalse]
  · cases h : env.writeOk (qcliProfilePath cfg p.name) <;>
      simp [QCLIAdapter.sync_item, hp, QCLIAdapter.sync_profile, fsWrite, h, pyCatchFalse]

/-- Witness for the amended C7 at concrete inputs: a q-cli-tagged profile
    through the Windsurf adapter and through the Q-CLI adapter with all
    writes succeeding. -/
theorem c7_amended_witness :
    WindsurfAdapter.sync_item cfgW envAll fsEmpty profForQcli = (.ok false, fsEmpty) ∧
    (QCLIAdapter.sync_item cfgQ envAll fsEmpty profForQcli).1
        = .ok (envAll.writeOk (qcliProfilePath cfgQ profForQcli.name)) :=
  c7_amended_no_tool_filtering cfgW envAll fsEmpty profForQcli rfl
    |>.imp (fun h => h) (fun _ => (c7_amended_no_tool_filtering cfgQ envAll fsEmpty profForQcli rfl).2)

theorem syncLoop_ok_spec (tn : String) (f : Item → Except PyExc Bool) (total : Nat) :
    ∀ (items : List Item) (i pv : Nat),
      (∀ it ∈ items, (f it).isOk = true) →
      i + items.length = total + 1 →
      1 ≤ i → pv ≤ 100 →
      (items ≠ [] → pv ≤ i * 100 / total) →
      (syncLoop tn f total i items).1 = true ∧
      nonDecr (pv :: (syncLoop tn f total i items).2.map Prod.fst) = true ∧
      lastOf (pv :: (syncLoop tn f total i items).2.map Prod.fst) = some 100 := by
  intro items
  induction items with
  | nil =>
      intro i pv _ _ _ hpv _
      refine ⟨rfl, ?_, rfl⟩
      simp only [syncLoop, List.map_cons, List.map_nil, nonDecr, Bool.and_true]
      rw [Nat.ble_eq]
      exact hpv
  | cons it rest ih =>
      intro i pv hok hlen hi hpv hpv2
      have hit : (f it).isOk = true := hok it (List.mem_cons_self it rest)
      have hrest : ∀ x ∈ rest, (f x).isOk = true :=
        fun x hx => hok x (List.mem_cons_of_mem it hx)
      have hitot : i ≤ total := by
        simp only [List.length_cons] at hlen
        omega
      have htpos : 0 < total := lt_of_lt_of_le hi hitot
      have hprog_le : i * 100 / total ≤ 100 := by
        have h1 : i * 100 ≤ total * 100 := Nat.mul_le_mul_right 100 hitot
        have h2 : i * 100 / total ≤ total * 100 / total := Nat.div_le_div_right h1
        have h3 : total * 100 / total = 100 := by
          rw [Nat.mul_comm]
          exact Nat.mul_div_cancel 100 htpos
        omega
      cases he : f it with
      | error e => rw [he] at hit; simp [Except.isOk, Except.toBool] at hit
      | ok b =>
          have ihh := ih (i + 1) (i * 100 / total) hrest
            (by simp only [List.length_cons] at hlen ⊢; omega)
            (Nat.le_succ_of_le hi) hprog_le
            (fun _ => Nat.div_le_div_right (Nat.mul_le_mul_right 100 (Nat.le_succ i)))
          obtain ⟨ih1, ih2, ih3⟩ := ihh
          have hble : Nat.ble pv (i * 100 / total) = true := by
            rw [Nat.ble_eq]
            exact hpv2 (by simp)
          refine ⟨?_, ?_, ?_⟩
          · simpa only [syncLoop, he] using ih1
          · simp only [syncLoop, he, List.map_cons, nonDecr]
            rw [hble, Bool.true_and]
            simpa only [List.map_cons] using ih2
          · simp only [syncLoop, he, List.map_cons, lastOf]
            simpa only [List.map_cons, lastOf] using ih3

/-- Claim C3: for every adapter function and every collection of items, as
    long as no sync_item call raises (no exception escapes the orchestration
    loop), sync_to_tool returns True — the boolean each sync_item call
    returns is discarded, never aggregated into the overall result. -/
theorem c3_sync_true_despite_item_failures (tn : String) (f : Item → Except PyExc Bool)
    (items : List Item) (hok : ∀ it ∈ items, (f it).isOk = true) :
    (ContentManager.sync_to_tool tn f items).1 = true := by
  cases items with
  | nil => rfl
  | cons it rest =>
      have h := syncLoop_ok_spec tn f (it :: rest).length (it :: rest) 1 0 hok
        (by simp only [List.length_cons]; omega) (Nat.le_refl 1) (by omega)
        (fun _ => Nat.zero_le _)
      simpa only [ContentManager.sync_to_tool] using h.1

/-- Witness for C3 at a concrete input: an adapter whose sync_item returns
    False for every one of the three items still yields an overall True. -/
theorem c3_witness :
    (ContentManager.sync_to_tool "q-cli" (fun _ => .ok false) demoItems).1 = true :=
  c3_sync_true_despite_item_failures "q-cli" (fun _ => .ok false) demoItems
    (fun _ _ => rfl)

/-- Claim C9: when no sync_item call raises (the adapter contract), the
    percentages passed to the progress callback are monotonically
    non-decreasing and the final reported percentage is 100; on an empty
    collection 100 is still reported (the callback list ends with 100) and
    the overall result is True. -/
theorem c9_progress_monotone_to_100 (tn : String) (f : Item → Except PyExc Bool)
    (items : List Item) (hok : ∀ it ∈ items, (f it).isOk = true) :
    nonDecr ((ContentManager.sync_to_tool tn f items).2.map Prod.fst) = true ∧
    lastOf ((ContentManager.sync_to_tool tn f items).2.map Prod.fst) = some 100 ∧
    (items = [] → (ContentManager.sync_to_tool tn f items).1 = true) := by
  cases items with
  | nil => exact ⟨rfl, rfl, fun _ => rfl⟩
  | cons it rest =>
      have h := syncLoop_ok_spec tn f (it :: rest).length (it :: rest) 1 0 hok
        (by simp only [List.length_cons]; omega) (Nat.le_refl 1) (by omega)
        (fun _ => Nat.zero_le _)
      refine ⟨?_, ?_, fun hc => absurd hc (by simp)⟩
      · simpa only [ContentManager.sync_to_tool, List.map_cons] using h.2.1
      · simpa only [ContentManager.sync_to_tool, List.map_cons] using h.2.2

/-- Witness for C9 at a concrete input: syncing the three demo items with an
    all-successful adapter gives callbacks at 0, 33, 66, 100, 100. -/
theorem c9_witness :
    nonDecr ((ContentManager.sync_to_tool "windsurf" (fun _ => .ok true) demoItems).2.map
        Prod.fst) = true ∧
    lastOf ((ContentManager.sync_to_tool "windsurf" (fun _ => .ok true) demoItems).2.map
        Prod.fst) = some 100 ∧
    (demoItems = [] →
      (ContentManager.sync_to_tool "windsurf" (fun _ => .ok true) demoItems).1 = true) :=
  c9_progress_monotone_to_100 "windsurf" (fun _ => .ok true) demoItems (fun _ _ => rfl)

theorem str_data_inj {a b : String} (h : a.data = b.data) : a = b := by
  cases a
  cases b
  exact congrArg String.mk h

theorem data_ne_of_ne_empty {n : String} (hn : n ≠ "") : n.data ≠ [] := by
  intro h
  exact hn (str_data_inj (by simp [h]))

theorem pyNormalize_data_ne {n : String} (hn : n ≠ "") : (pyNormalize n).data ≠ [] := by
  have h := data_ne_of_ne_empty hn
  intro hc
  exact h (List.map_eq_nil_iff.mp hc)

theorem strCat_ne (n : String) {a b : String} (h : a ≠ b) : strCat n a ≠ strCat n b := by
  intro hc
  apply h
  apply str_data_inj
  have hd := congrArg String.data hc
  simp only [strCat] at hd
  exact List.append_cancel_left hd

theorem lastSeg_push (p : FilePath0) (s : String) : (p.push s).lastSeg = s := by
  simp [FilePath0.push, FilePath0.lastSeg, List.reverse_append]

theorem suffix_push (p : FilePath0) (s : String) : (p.push s).suffix = strSuffix s := by
  simp [FilePath0.suffix, lastSeg_push]

theorem parent_push (p : FilePath0) (s : String) : (p.push s).parent = p := by
  simp [FilePath0.push, FilePath0.parent]

theorem push_right_ne (p : FilePath0) {a b : String} (h : a ≠ b) : p.push a ≠ p.push b := by
  intro hc
  apply h
  have hd := congrArg FilePath0.segs hc
  simp only [FilePath0.push, List.append_cancel_left_eq] at hd
  simpa using hd

theorem self_mem_pathPrefixes (p : FilePath0) : p ∈ pathPrefixes p := by
  simp only [pathPrefixes, List.mem_map]
  exact ⟨p.segs.length, by simp, by simp⟩

theorem ctValue_suffix (ct : ContentType) : strSuffix ct.value = "" := by
  cases ct <;> rfl

theorem default_ext_ne_empty (ct : ContentType) : default_ext ct ≠ "" := by
  unfold default_ext
  split <;> decide

theorem default_ext_supported (ct : ContentType) :
    default_ext ct = ".yaml" ∨ default_ext ct = ".yml" ∨ default_ext ct = ".json" := by
  unfold default_ext
  split
  · exact Or.inl rfl
  · exact Or.inr (Or.inr rfl)

theorem firstDotIdx_append_no_dot (pre post : List Char) (h : ∀ c ∈ pre, ¬ c = '.') :
    firstDotIdx (pre ++ post) = (firstDotIdx post).map (· + pre.length) := by
  induction pre with
  | nil => simp
  | cons c cs ihp =>
      have hc : ¬ c = '.' := h c (by simp)
      have hcs : ∀ x ∈ cs, ¬ x = '.' := fun x hx => h x (by simp [hx])
      simp only [List.cons_append, firstDotIdx, if_neg hc, List.append_eq, ihp hcs,
        List.length_cons]
      cases firstDotIdx post with
      | none => rfl
      | some k =>
          simp only [Option.map_some', Option.some.injEq]
          omega

theorem mk_data (s : String) : String.mk s.data = s := by
  cases s
  rfl

theorem strSuffix_strCat_ext (n ext : String) (tail : List Char) (hn : n.data ≠ [])
    (hx : ext.data = '.' :: tail) (ht : tail ≠ []) (hnd : ∀ c ∈ tail, ¬ c = '.') :
    strSuffix (strCat n ext) = ext := by
  have hrev : (strCat n ext).data.reverse = tail.reverse ++ ('.' :: n.data.reverse) := by
    simp [strCat, hx, List.reverse_append]
  have hfd : firstDotIdx (strCat n ext).data.reverse = some tail.length := by
    rw [hrev, firstDotIdx_append_no_dot _ _ (fun c hc => hnd c (List.mem_reverse.mp hc))]
    simp [firstDotIdx]
  have hlen : (strCat n ext).data.length = n.data.length + (tail.length + 1) := by
    simp [strCat, hx]
  have hnpos : 0 < n.data.length := List.length_pos.mpr hn
  have htpos : 0 < tail.length := List.length_pos.mpr ht
  have hidx : (strCat n ext).data.length - 1 - tail.length = n.data.length := by omega
  have hdrop : (strCat n ext).data.drop n.data.length = ext.data := by
    simp only [strCat]
    exact List.drop_left n.data ext.data
  simp only [strSuffix, hfd]
  rw [if_pos (by constructor <;> omega)]
  rw [hidx, hdrop, mk_data]

theorem strSuffix_cat_yaml {n : String} (hn : n.data ≠ []) :
    strSuffix (strCat n ".yaml") = ".yaml" :=
  strSuffix_strCat_ext n ".yaml" ['y', 'a', 'm', 'l'] hn rfl (by decide) (by decide)

theorem strSuffix_cat_json {n : String} (hn : n.data ≠ []) :
    strSuffix (strCat n ".json") = ".json" :=
  strSuffix_strCat_ext n ".json" ['j', 's', 'o', 'n'] hn rfl (by decide) (by decide)

theorem strSuffix_defaultFileName (item : Item) (hn : (pyNormalize item.name).data ≠ []) :
    strSuffix (defaultFileName item) = default_ext item.content_type := by
  unfold defaultFileName default_ext
  by_cases h : item.content_type = .RULE ∨ item.content_type = .WORKFLOW ∨
      item.content_type = .PROFILE
  · rw [if_pos h]
    exact strSuffix_cat_yaml hn
  · rw [if_neg h]
    exact strSuffix_cat_json hn

theorem lookupFile_cons_self (p : FilePath0) (d : FileData) (rest : List (FilePath0 × FileData)) :
    lookupFile ((p, d) :: rest) p = some d := by
  simp [lookupFile]

theorem lookupFile_cons_ne {q p : FilePath0} (hne : q ≠ p) (d : FileData)
    (rest : List (FilePath0 × FileData)) :
    lookupFile ((q, d) :: rest) p = lookupFile rest p := by
  simp [lookupFile, hne]

theorem findGlob_cons_not {q : FilePath0} {d : FileData} {rest : List (FilePath0 × FileData)}
    {dir : FilePath0} {fname : String} (h : globMatch dir fname q = false) :
    findGlob ((q, d) :: rest) dir fname = findGlob rest dir fname := by
  simp [findGlob, h]

theorem globMatch_push (dir : FilePath0) (s fname : String) :
    globMatch dir fname (dir.push s) = (s == fname) := by
  simp only [globMatch, FilePath0.push]
  rw [List.drop_left]
  simp [List.isPrefixOf_iff_prefix]

theorem findName_eq_none {fs : FS} {dir : FilePath0} {f : String}
    (h : ContentManager.findName fs dir f = none) :
    fs.getFile (dir.push f) = none ∧ findGlob fs.files dir f = none := by
  unfold ContentManager.findName at h
  by_cases hg : (fs.getFile (dir.push f)).isSome
  · rw [if_pos hg] at h
    exact absurd h (by simp)
  · rw [if_neg hg] at h
    exact ⟨Option.not_isSome_iff_eq_none.mp hg, h⟩

theorem searchExts_none_elim {fs : FS} {dir : FilePath0} {name : String} :
    ∀ {exts : List String},
      ContentManager.searchExts fs dir name exts = .ok none →
      ∀ e ∈ exts, ContentManager.findName fs dir (strCat name e) = none := by
  intro exts
  induction exts with
  | nil =>
      intro _ e he
      cases he
  | cons x rest ihe =>
      intro h e he
      unfold ContentManager.searchExts at h
      cases hf : ContentManager.findName fs dir (strCat name x) with
      | some p =>
          simp only [hf] at h
          cases hl : ContentItem.load fs p with
          | error er => simp only [hl] at h; exact Except.noConfusion h
          | ok jj => simp only [hl] at h; simp at h
      | none =>
          simp only [hf] at h
          rcases List.mem_cons.mp he with rfl | hm
          · exact hf
          · exact ihe h e hm

theorem save_generated (item : Item) (dir : FilePath0) (fs : FS)
    (hdir : ¬ (dir.suffix = ".yaml" ∨ dir.suffix = ".yml" ∨ dir.suffix = ".json"))
    (hpath : item.path = none) (hn : (pyNormalize item.name).data ≠ []) :
    ContentItem.save item (some dir) none fs
      = (.ok (dir.push (defaultFileName item),
          { item with path := some (dir.push (defaultFileName item)) }),
         (fs.mkdirP (dir.push (defaultFileName item)).parent).setFile
            (dir.push (defaultFileName item)) (.val (.dict (ContentItem.saveData item)))) := by
  have hsfx : (dir.push (defaultFileName item)).suffix = default_ext item.content_type := by
    rw [suffix_push]
    exact strSuffix_defaultFileName item hn
  unfold ContentItem.save
  simp only [hpath, hdir, hsfx, default_ext_ne_empty item.content_type,
    default_ext_supported item.content_type, if_false, if_true, ite_false, ite_true,
    Option.some.injEq, reduceCtorEq, false_and, and_false]

theorem contentDir_suffix (base : FilePath0) (ct : ContentType) :
    (contentDir base ct).suffix = "" := by
  simp [contentDir, suffix_push, ctValue_suffix]



theorem getFile_mk (l : List (FilePath0 × FileData)) (ds : List FilePath0) (p : FilePath0) :
    FS.getFile ⟨l, ds⟩ p = lookupFile l p := rfl

theorem findName_cons_push_ne {fs : FS} {dir : FilePath0} {a b : String} {d : FileData}
    (hne : a ≠ b) (hf : ContentManager.findName fs dir b = none) (dirs2 : List FilePath0) :
    ContentManager.findName ⟨(dir.push a, d) :: fs.files, dirs2⟩ dir b = none := by
  obtain ⟨h1, h2⟩ := findName_eq_none hf
  have hpne : dir.push a ≠ dir.push b := push_right_ne dir hne
  have hg : FS.getFile ⟨(dir.push a, d) :: fs.files, dirs2⟩ (dir.push b) = none := by
    rw [getFile_mk, lookupFile_cons_ne hpne]
    exact h1
  unfold ContentManager.findName
  rw [if_neg (by simp [hg])]
  show findGlob ((dir.push a, d) :: fs.files) dir b = none
  rw [findGlob_cons_not (by rw [globMatch_push]; exact beq_false_of_ne hne)]
  exact h2

theorem findName_cons_push_self {fs : FS} {dir : FilePath0} {a : String} {d : FileData}
    (dirs2 : List FilePath0) :
    ContentManager.findName ⟨(dir.push a, d) :: fs.files, dirs2⟩ dir a
      = some (dir.push a) := by
  unfold ContentManager.findName
  rw [if_pos (by rw [getFile_mk, lookupFile_cons_self]; rfl)]


/-- Claim C1, amended: the round-trip law holds for items of the Rule family
    (RULE, GLOBAL_RULE, PROJECT_RULE) whose name is already in normalized
    form (lowercase, spaces replaced by underscores) and that have not been
    persisted before, added under a name that is still free: add_item then
    get_item returns an item with the same name, content type and content.
    Workflow and Profile files cannot be read back at all (their from_dict
    raises, see C2/C5), and non-normalized names are stored under a file
    name that get_item does not search for (see the counterexample). -/
theorem c1_amended_roundtrip (fs : FS) (base : FilePath0) (item : Item) (c : Dict)
    (hvar : item.content_type = .RULE ∨ item.content_type = .GLOBAL_RULE ∨
      item.content_type = .PROJECT_RULE)
    (hname : item.name ≠ "")
    (hnorm : pyNormalize item.name = item.name)
    (hcontent : item.content = .dict c)
    (hpath : item.path = none)
    (hnone : ContentManager.get_item fs base item.content_type item.name = .ok none) :
    ∃ j : Item,
      ContentManager.get_item (ContentManager.add_item base item false fs).2 base
          item.content_type item.name = .ok (some j) ∧
      j.name = item.name ∧ j.content_type = item.content_type ∧ j.content = item.content := by
  obtain ⟨v, n, co, ct, pth, m, tl⟩ := item
  dsimp only at hvar hname hnorm hcontent hpath hnone ⊢
  subst hcontent
  subst hpath
  have hn : n.data ≠ [] := data_ne_of_ne_empty hname
  have hnn : (pyNormalize n).data ≠ [] := by rw [hnorm]; exact hn
  rcases hvar with rfl | rfl | rfl
  · -- ct = RULE
    set dir := contentDir base ContentType.RULE with hdirdef
    have hdir : ¬ (dir.suffix = ".yaml" ∨ dir.suffix = ".yml" ∨ dir.suffix = ".json") := by
      rw [hdirdef, contentDir_suffix]
      decide
    have hsave := save_generated ⟨v, n, .dict c, .RULE, none, m, tl⟩ dir fs hdir rfl hnn
    have hdfn : defaultFileName ⟨v, n, .dict c, .RULE, none, m, tl⟩ = strCat n ".yaml" := by
      unfold defaultFileName
      rw [hnorm]
      rfl
    rw [hdfn] at hsave
    have hnone2 : ContentManager.searchExts fs dir n [".yaml", ".yml", ".json"]
        = .ok none := hnone
    set dpath := dir.push (strCat n ".yaml") with hdp
    set doc : FileData :=
      .val (.dict (ContentItem.saveData ⟨v, n, .dict c, .RULE, none, m, tl⟩)) with hdoc
    set fs2 : FS := ⟨(dpath, doc) :: fs.files, pathPrefixes dpath.parent ++ fs.dirs⟩ with hfs2
    have hget2 : fs2.getFile dpath = some doc := by
      rw [hfs2, getFile_mk, lookupFile_cons_self]
    have hsfx2 : dpath.suffix = ".yaml" := by
      rw [hdp, suffix_push]
      exact strSuffix_cat_yaml hn
    have hload : ContentItem.load fs2 dpath
        = .ok ⟨.rule, n, .dict c, .RULE, some dpath, m, none⟩ := by
      unfold ContentItem.load
      simp only [hget2, hsfx2, hdoc]
      simp [ContentItem.saveData, dictGet, Rule.from_dict, ContentType.ofValue,
        ContentItem.validate_base, hname, ContentType.value]
    have hfind : ContentManager.findName fs2 dir (strCat n ".yaml") = some dpath := by
      rw [hfs2, hdp]
      exact findName_cons_push_self _
    have hgoal : ContentManager.get_item fs2 base .RULE n
        = .ok (some ⟨.rule, n, .dict c, .RULE, some dpath, m, none⟩) := by
      show ContentManager.searchExts fs2 dir n [".yaml", ".yml", ".json"] = _
      unfold ContentManager.searchExts
      simp only [hfind, hload]
    have haddeq :
        (ContentManager.add_item base ⟨v, n, .dict c, .RULE, none, m, tl⟩ false fs).2
          = fs2 := by
      show (match ContentManager.get_item fs base .RULE n with
        | .error e => ((.error e : Except PyExc (FilePath0 × Item)), fs)
        | .ok existing =>
            if existing.isSome && !false then (.error .fileExistsError, fs)
            else ContentItem.save ⟨v, n, .dict c, .RULE, none, m, tl⟩ (some dir) none fs).2
          = fs2
      rw [hnone]
      simp only [Option.isSome_none, Bool.false_and, Bool.and_true, if_neg]
      rw [hsave]
      rfl
    refine ⟨⟨.rule, n, .dict c, .RULE, some dpath, m, none⟩, ?_, rfl, rfl, rfl⟩
    rw [haddeq]
    exact hgoal
  · -- ct = GLOBAL_RULE
    set dir := contentDir base ContentType.GLOBAL_RULE with hdirdef
    have hdir : ¬ (dir.suffix = ".yaml" ∨ dir.suffix = ".yml" ∨ dir.suffix = ".json") := by
      rw [hdirdef, contentDir_suffix]
      decide
    have hsave := save_generated ⟨v, n, .dict c, .GLOBAL_RULE, none, m, tl⟩ dir fs hdir rfl hnn
    have hdfn : defaultFileName ⟨v, n, .dict c, .GLOBAL_RULE, none, m, tl⟩
        = strCat n ".json" := by
      unfold defaultFileName
      rw [hnorm]
      rfl
    rw [hdfn] at hsave
    have hnone2 : ContentManager.searchExts fs dir n [".yaml", ".yml", ".json"]
        = .ok none := hnone
    have hy := searchExts_none_elim hnone2 ".yaml" (by simp)
    have hml := searchExts_none_elim hnone2 ".yml" (by simp)
    set dpath := dir.push (strCat n ".json") with hdp
    set doc : FileData :=
      .val (.dict (ContentItem.saveData ⟨v, n, .dict c, .GLOBAL_RULE, none, m, tl⟩)) with hdoc
    set fs2 : FS := ⟨(dpath, doc) :: fs.files, pathPrefixes dpath.parent ++ fs.dirs⟩ with hfs2
    have hget2 : fs2.getFile dpath = some doc := by
      rw [hfs2, getFile_mk, lookupFile_cons_self]
    have hsfx2 : dpath.suffix = ".json" := by
      rw [hdp, suffix_push]
      exact strSuffix_cat_json hn
    have hmiss1 : ContentManager.findName fs2 dir (strCat n ".yaml") = none := by
      rw [hfs2, hdp]
      exact findName_cons_push_ne (strCat_ne n (by decide)) hy _
    have hmiss2 : ContentManager.findName fs2 dir (strCat n ".yml") = none := by
      rw [hfs2, hdp]
      exact findName_cons_push_ne (strCat_ne n (by decide)) hml _
    have hfind : ContentManager.findName fs2 dir (strCat n ".json") = some dpath := by
      rw [hfs2, hdp]
      exact findName_cons_push_self _
    have hload : ContentItem.load fs2 dpath
        = .ok ⟨.rule, n, .dict c, .GLOBAL_RULE, some dpath, m, none⟩ := by
      unfold ContentItem.load
      simp only [hget2, hsfx2, hdoc]
      simp [ContentItem.saveData, dictGet, Rule.from_dict, ContentType.ofValue,
        ContentItem.validate_base, hname, ContentType.value]
    have hgoal : ContentManager.get_item fs2 base .GLOBAL_RULE n
        = .ok (some ⟨.rule, n, .dict c, .GLOBAL_RULE, some dpath, m, none⟩) := by
      show ContentManager.searchExts fs2 dir n [".yaml", ".yml", ".json"] = _
      simp only [ContentManager.searchExts, hmiss1, hmiss2, hfind, hload]
    have haddeq :
        (ContentManager.add_item base ⟨v, n, .dict c, .GLOBAL_RULE, none, m, tl⟩ false fs).2
          = fs2 := by
      show (match ContentManager.get_item fs base .GLOBAL_RULE n with
        | .error e => ((.error e : Except PyExc (FilePath0 × Item)), fs)
        | .ok existing =>
            if existing.isSome && !false then (.error .fileExistsError, fs)
            else ContentItem.save ⟨v, n, .dict c, .GLOBAL_RULE, none, m, tl⟩
              (some dir) none fs).2 = fs2
      rw [hnone]
      simp only [Option.isSome_none, Bool.false_and, Bool.and_true, if_neg]
      rw [hsave]
      rfl
    refine ⟨⟨.rule, n, .dict c, .GLOBAL_RULE, some dpath, m, none⟩, ?_, rfl, rfl, rfl⟩
    rw [haddeq]
    exact hgoal
  · -- ct = PROJECT_RULE
    set dir := contentDir base ContentType.PROJECT_RULE with hdirdef
    have hdir : ¬ (dir.suffix = ".yaml" ∨ dir.suffix = ".yml" ∨ dir.suffix = ".json") := by
      rw [hdirdef, contentDir_suffix]
      decide
    have hsave := save_generated ⟨v, n, .dict c, .PROJECT_RULE, none, m, tl⟩ dir fs hdir rfl hnn
    have hdfn : defaultFileName ⟨v, n, .dict c, .PROJECT_RULE, none, m, tl⟩
        = strCat n ".json" := by
      unfold defaultFileName
      rw [hnorm]
      rfl
    rw [hdfn] at hsave
    have hnone2 : ContentManager.searchExts fs dir n [".yaml", ".yml", ".json"]
        = .ok none := hnone
    have hy := searchExts_none_elim hnone2 ".yaml" (by simp)
    have hml := searchExts_none_elim hnone2 ".yml" (by simp)
    set dpath := dir.push (strCat n ".json") with hdp
    set doc : FileData :=
      .val (.dict (ContentItem.saveData ⟨v, n, .dict c, .PROJECT_RULE, none, m, tl⟩)) with hdoc
    set fs2 : FS := ⟨(dpath, doc) :: fs.files, pathPrefixes dpath.parent ++ fs.dirs⟩ with hfs2
    have hget2 : fs2.getFile dpath = some doc := by
      rw [hfs2, getFile_mk, lookupFile_cons_self]
    have hsfx2 : dpath.suffix = ".json" := by
      rw [hdp, suffix_push]
      exact strSuffix_cat_json hn
    have hmiss1 : ContentManager.findName fs2 dir (strCat n ".yaml") = none := by
      rw [hfs2, hdp]
      exact findName_cons_push_ne (strCat_ne n (by decide)) hy _
    have hmiss2 : ContentManager.findName fs2 dir (strCat n ".yml") = none := by
      rw [hfs2, hdp]
      exact findName_cons_push_ne (strCat_ne n (by decide)) hml _
    have hfind : ContentManager.findName fs2 dir (strCat n ".json") = some dpath := by
      rw [hfs2, hdp]
      exact findName_cons_push_self _
    have hload : ContentItem.load fs2 dpath
        = .ok ⟨.rule, n, .dict c, .PROJECT_RULE, some dpath, m, none⟩ := by
      unfold ContentItem.load
      simp only [hget2, hsfx2, hdoc]
      simp [ContentItem.saveData, dictGet, Rule.from_dict, ContentType.ofValue,
        ContentItem.validate_base, hname, ContentType.value]
    have hgoal : ContentManager.get_item fs2 base .PROJECT_RULE n
        = .ok (some ⟨.rule, n, .dict c, .PROJECT_RULE, some dpath, m, none⟩) := by
      show ContentManager.searchExts fs2 dir n [".yaml", ".yml", ".json"] = _
      simp only [ContentManager.searchExts, hmiss1, hmiss2, hfind, hload]
    have haddeq :
        (ContentManager.add_item base ⟨v, n, .dict c, .PROJECT_RULE, none, m, tl⟩ false fs).2
          = fs2 := by
      show (match ContentManager.get_item fs base .PROJECT_RULE n with
        | .error e => ((.error e : Except PyExc (FilePath0 × Item)), fs)
        | .ok existing =>
            if existing.isSome && !false then (.error .fileExistsError, fs)
            else ContentItem.save ⟨v, n, .dict c, .PROJECT_RULE, none, m, tl⟩
              (some dir) none fs).2 = fs2
      rw [hnone]
      simp only [Option.isSome_none, Bool.false_and, Bool.and_true, if_neg]
      rw [hsave]
      rfl
    refine ⟨⟨.rule, n, .dict c, .PROJECT_RULE, some dpath, m, none⟩, ?_, rfl, rfl, rfl⟩
    rw [haddeq]
    exact hgoal

/-- Witness for the amended C1 at a concrete input: the spec scenario rule
    lint-py round-trips through a fresh manager. -/
theorem c1_amended_witness :
    ∃ j : Item,
      ContentManager.get_item (ContentManager.add_item baseCfg itemLintPy false fsFresh).2
          baseCfg itemLintPy.content_type itemLintPy.name = .ok (some j) ∧
      j.name = itemLintPy.name ∧ j.content_type = itemLintPy.content_type ∧
      j.content = itemLintPy.content :=
  c1_amended_roundtrip fsFresh baseCfg itemLintPy
    [("description", .str "x"), ("conditions", .list []), ("actions", .list [])]
    (Or.inl rfl) (by decide) rfl rfl rfl rfl

/-- Claim C6, amended: when get_item finds an existing item for the pair
    (content_type, name), add_item with overwrite false fails with the
    AlreadyExists error (FileExistsError) and leaves the filesystem
    unchanged; with overwrite true it succeeds and writes the document to
    the type directory top-level default path (normalized name plus default
    extension).  The old file is replaced in place exactly when it lies at
    that default path — which is the case for items previously added by
    add_item under a normalized name — while an existing file elsewhere
    (for example in a subdirectory) is left behind next to the new one (see
    the counterexample). -/
theorem c6_amended_add_overwrite (fs : FS) (base : FilePath0) (item : Item) (j : Item) (w : FileData)
    (hj : ContentManager.get_item fs base item.content_type item.name = .ok (some j))
    (hpath : item.path = none) (hname : item.name ≠ "")
    (_hw : fs.getFile (defaultSavePath base item) = some w) :
    ContentManager.add_item base item false fs = (.error .fileExistsError, fs) ∧
    (ContentManager.add_item base item true fs).1
        = .ok (defaultSavePath base item,
            { item with path := some (defaultSavePath base item) }) ∧
    FS.getFile (ContentManager.add_item base item true fs).2 (defaultSavePath base item)
        = some (.val (.dict (ContentItem.saveData item))) := by
  have hdir : ¬ ((contentDir base item.content_type).suffix = ".yaml" ∨
      (contentDir base item.content_type).suffix = ".yml" ∨
      (contentDir base item.content_type).suffix = ".json") := by
    rw [contentDir_suffix]
    decide
  have hn : (pyNormalize item.name).data ≠ [] := pyNormalize_data_ne hname
  have hsave := save_generated item (contentDir base item.content_type) fs hdir hpath hn
  refine ⟨?_, ?_, ?_⟩
  · simp [ContentManager.add_item, hj]
  · simp [ContentManager.add_item, hj, hsave, defaultSavePath]
  · simp [ContentManager.add_item, hj, hsave, defaultSavePath, FS.getFile, FS.setFile,
      lookupFile_cons_self]

/-- Witness for the amended C6 at a concrete input: rules/r.yaml exists, so
    adding the rule r without overwrite fails and with overwrite rewrites
    that same file. -/
theorem c6_amended_witness :
    ContentManager.add_item baseCfg itemRNew false fsDirect
        = (.error .fileExistsError, fsDirect) ∧
    (ContentManager.add_item baseCfg itemRNew true fsDirect).1
        = .ok (defaultSavePath baseCfg itemRNew,
            { itemRNew with path := some (defaultSavePath baseCfg itemRNew) }) ∧
    FS.getFile (ContentManager.add_item baseCfg itemRNew true fsDirect).2
        (defaultSavePath baseCfg itemRNew)
        = some (.val (.dict (ContentItem.saveData itemRNew))) :=
  c6_amended_add_overwrite fsDirect baseCfg itemRNew
    ⟨.rule, "r", .dict [("description", .str "old")], .RULE, some directRulePath,
      .dict [], none⟩
    (.val (.dict ruleDocOld)) rfl rfl (by decide) rfl

/-- Claim C8, amended: a save whose resolved destination carries an
    extension other than .yaml/.yml/.json fails with UnsupportedFormat and
    the item's stored path is unchanged (the path update is never reached),
    but the failure is not clean: the destination parent directory is
    created (mkdir runs before the format dispatch) and an empty file is
    left at the destination (open for writing creates the file before the
    extension check raises). -/
theorem c8_amended_unsupported_format (fs : FS) (item : Item) (b : FilePath0) (s : String)
    (h1 : strSuffix s ≠ ".yaml") (h2 : strSuffix s ≠ ".yml")
    (h3 : strSuffix s ≠ ".json") (h4 : strSuffix s ≠ "") :
    (ContentItem.save item (some b) (some (relPath [s])) fs).1
        = .error (.valueError (strCat "Unsupported file format: " (strSuffix s))) ∧
    FS.getFile (ContentItem.save item (some b) (some (relPath [s])) fs).2 (b.push s)
        = some .empty ∧
    b ∈ (ContentItem.save item (some b) (some (relPath [s])) fs).2.dirs := by
  have hjoin : pathJoin b (relPath [s]) = b.push s := rfl
  have hsfx : (relPath [s]).suffix = strSuffix s := rfl
  have habs : (relPath [s]).abs = false := rfl
  have hpsfx : (b.push s).suffix = strSuffix s := suffix_push b s
  have hsave : ContentItem.save item (some b) (some (relPath [s])) fs
      = (.error (.valueError (strCat "Unsupported file format: " (strSuffix s))),
         (fs.mkdirP (b.push s).parent).setFile (b.push s) .empty) := by
    unfold ContentItem.save
    simp only [hjoin, hsfx, habs, hpsfx, h1, h2, h3, h4, if_false, ite_false, ite_true,
      reduceCtorEq, false_and, and_false, not_false_iff, or_self, or_false, false_or,
      ne_eq, ite_not, Bool.false_eq_true]
  refine ⟨by rw [hsave], ?_, ?_⟩
  · rw [hsave]
    exact lookupFile_cons_self _ _ _
  · rw [hsave]
    show b ∈ pathPrefixes (b.push s).parent ++ fs.dirs
    rw [parent_push]
    exact List.mem_append_left _ (self_mem_pathPrefixes b)

/-- Witness for the amended C8 at a concrete input: saving to foo.txt under
    the directory d raises UnsupportedFormat, yet creates d and an empty
    d/foo.txt. -/
theorem c8_amended_witness :
    (ContentItem.save itemTestRule (some (absPath ["d"]))
        (some (relPath ["foo.txt"])) fsEmpty).1
        = .error (.valueError (strCat "Unsupported file format: " (strSuffix "foo.txt"))) ∧
    FS.getFile (ContentItem.save itemTestRule (some (absPath ["d"]))
        (some (relPath ["foo.txt"])) fsEmpty).2 ((absPath ["d"]).push "foo.txt")
        = some .empty ∧
    absPath ["d"] ∈ (ContentItem.save itemTestRule (some (absPath ["d"]))
        (some (relPath ["foo.txt"])) fsEmpty).2.dirs :=
  c8_amended_unsupported_format fsEmpty itemTestRule (absPath ["d"]) "foo.txt"
    (by decide) (by decide) (by decide) (by decide)

/-- Claim C8, counterexample: saving the rule with destination d/foo.txt on
    an empty filesystem raises UnsupportedFormat as claimed, but the failure
    is not clean — the parent directory d, absent beforehand, remains
    created, and an empty file d/foo.txt is left behind. -/
theorem c8_counterexample :
    (ContentItem.save itemTestRule (some (absPath ["d"]))
        (some (relPath ["foo.txt"])) fsEmpty).1
        = .error (.valueError (strCat "Unsupported file format: " ".txt")) ∧
    absPath ["d"] ∉ fsEmpty.dirs ∧
    absPath ["d"] ∈ (ContentItem.save itemTestRule (some (absPath ["d"]))
        (some (relPath ["foo.txt"])) fsEmpty).2.dirs ∧
    FS.getFile (ContentItem.save itemTestRule (some (absPath ["d"]))
        (some (relPath ["foo.txt"])) fsEmpty).2 (absPath ["d", "foo.txt"])
        = some .empty :=
  ⟨rfl, by decide, by decide, rfl⟩
